import Mathlib

/-!
# Verification of the sentry-claude-auto-pr webhook service

A shallow embedding of the repository's core components:

* `Crypto`: HMAC-SHA256 and lowercase hex encoding, as used by the
  signature verifier (`crypto/hmac`, `crypto/sha256`, `encoding/hex`).
* `Webhook`: the `SignatureVerifier` (`Verify`, `Middleware`), the Sentry
  payload types, `ParseWebhook`, and the webhook `Handler.ServeHTTP` with
  its non-blocking bounded job queue.
* `GitProvider`: `CommitFiles`, `CreateBranch` and `CreatePullRequest`
  of the GitHub provider, run against a semantic model of the remote
  repository state (refs, commits, trees, pull requests) with explicit
  network-fault injection.

Bytes are modelled as `Nat` (reduced mod 256 where produced), 32-bit words
as `Nat` with explicit reduction mod 4294967296.
-/

namespace Crypto

/-- 32-bit truncation. -/
def w32 (n : Nat) : Nat := n % 4294967296

/-- Right rotation of a 32-bit word. -/
def rotr (n x : Nat) : Nat := w32 ((x >>> n) ||| (x <<< (32 - n)))

/-- XOR of three words. -/
def xor3 (a b c : Nat) : Nat := Nat.xor (Nat.xor a b) c

/-- Bitwise complement of a 32-bit word. -/
def not32 (x : Nat) : Nat := Nat.xor x 4294967295

/-- The eight 32-bit working variables of SHA-256. -/
structure SHAState where
  a : Nat
  b : Nat
  c : Nat
  d : Nat
  e : Nat
  f : Nat
  g : Nat
  h : Nat

/-- SHA-256 initial hash value (the eight words of FIPS 180-4, written in
decimal). -/
def initState : SHAState :=
  ⟨1779033703, 3144134277, 1013904242, 2773480762,
   1359893119, 2600822924, 528734635, 1541459225⟩

/-- SHA-256 round constants (the 64 words of FIPS 180-4, written in
decimal). -/
def K64 : List Nat :=
  [1116352408, 1899447441, 3049323471, 3921009573, 961987163, 1508970993,
   2453635748, 2870763221, 3624381080, 310598401, 607225278, 1426881987,
   1925078388, 2162078206, 2614888103, 3248222580, 3835390401, 4022224774,
   264347078, 604807628, 770255983, 1249150122, 1555081692, 1996064986,
   2554220882, 2821834349, 2952996808, 3210313671, 3336571891, 3584528711,
   113926993, 338241895, 666307205, 773529912, 1294757372, 1396182291,
   1695183700, 1986661051, 2177026350, 2456956037, 2730485921, 2820302411,
   3259730800, 3345764771, 3516065817, 3600352804, 4094571909, 275423344,
   430227734, 506948616, 659060556, 883997877, 958139571, 1322822218,
   1537002063, 1747873779, 1955562222, 2024104815, 2227730452, 2361852424,
   2428436474, 2756734187, 3204031479, 3329325298]

/-- Four big-endian bytes of a 32-bit word. -/
def wordBytes (x : Nat) : List Nat :=
  [x / 16777216 % 256, x / 65536 % 256, x / 256 % 256, x % 256]

/-- Eight big-endian bytes of a 64-bit length. -/
def lengthBytes (n : Nat) : List Nat :=
  [n / 72057594037927936 % 256, n / 281474976710656 % 256,
   n / 1099511627776 % 256, n / 4294967296 % 256,
   n / 16777216 % 256, n / 65536 % 256, n / 256 % 256, n % 256]

/-- SHA-256 padding: a 0x80 byte, zeros, and the bit length, to a
multiple of 64 bytes. -/
def padMessage (msg : List Nat) : List Nat :=
  let padZeros := (64 - ((msg.length + 9) % 64)) % 64
  msg ++ [0x80] ++ List.replicate padZeros 0 ++ lengthBytes (msg.length * 8)

/-- Big-endian 32-bit words from groups of four bytes. -/
def bytesToWords : List Nat → List Nat
  | b0 :: b1 :: b2 :: b3 :: rest =>
      (((b0 * 256 + b1) * 256 + b2) * 256 + b3) :: bytesToWords rest
  | _ => []

/-- Split a byte string into 64-byte blocks. -/
def chunks : List Nat → List (List Nat)
  | [] => []
  | x :: xs => ((x :: xs).take 64) :: chunks ((x :: xs).drop 64)
termination_by l => l.length
decreasing_by simp only [List.length_drop, List.length_cons]; omega

/-- Extend a 16-word message schedule by `k` further words. -/
def extendW : List Nat → Nat → List Nat
  | w, 0 => w
  | w, k + 1 =>
    let n := w.length
    let w15 := w.getD (n - 15) 0
    let w2 := w.getD (n - 2) 0
    let s0 := xor3 (rotr 7 w15) (rotr 18 w15) (w15 >>> 3)
    let s1 := xor3 (rotr 17 w2) (rotr 19 w2) (w2 >>> 10)
    let next := w32 (w.getD (n - 16) 0 + s0 + w.getD (n - 7) 0 + s1)
    extendW (w ++ [next]) k

/-- One SHA-256 compression round, fed one `(constant, scheduled word)` pair. -/
def roundStep (st : SHAState) (kw : Nat × Nat) : SHAState :=
  let s1 := xor3 (rotr 6 st.e) (rotr 11 st.e) (rotr 25 st.e)
  let ch := Nat.xor (Nat.land st.e st.f) (Nat.land (not32 st.e) st.g)
  let t1 := w32 (st.h + s1 + ch + kw.1 + kw.2)
  let s0 := xor3 (rotr 2 st.a) (rotr 13 st.a) (rotr 22 st.a)
  let mj := Nat.xor (Nat.xor (Nat.land st.a st.b) (Nat.land st.a st.c)) (Nat.land st.b st.c)
  let t2 := w32 (s0 + mj)
  ⟨w32 (t1 + t2), st.a, st.b, st.c, w32 (st.d + t1), st.e, st.f, st.g⟩

/-- Compress one 64-byte block into the running hash state. -/
def compressBlock (h0 : SHAState) (block : List Nat) : SHAState :=
  let w := extendW (bytesToWords block) 48
  let st := (K64.zip w).foldl roundStep h0
  ⟨w32 (h0.a + st.a), w32 (h0.b + st.b), w32 (h0.c + st.c), w32 (h0.d + st.d),
   w32 (h0.e + st.e), w32 (h0.f + st.f), w32 (h0.g + st.g), w32 (h0.h + st.h)⟩

/-- SHA-256 of a byte string, as 32 bytes. -/
def sha256 (msg : List Nat) : List Nat :=
  let fin := (chunks (padMessage msg)).foldl compressBlock initState
  wordBytes fin.a ++ wordBytes fin.b ++ wordBytes fin.c ++ wordBytes fin.d ++
  wordBytes fin.e ++ wordBytes fin.f ++ wordBytes fin.g ++ wordBytes fin.h

/-- HMAC-SHA256 (block size 64): a key longer than a block is hashed first,
then zero-padded; inner pad 0x36, outer pad 0x5c. -/
def hmacSha256 (key msg : List Nat) : List Nat :=
  let k0 := if key.length > 64 then sha256 key else key
  let k := k0 ++ List.replicate (64 - k0.length) 0
  let ipad := k.map (fun b => Nat.xor b 0x36)
  let opad := k.map (fun b => Nat.xor b 0x5c)
  sha256 (opad ++ sha256 (ipad ++ msg))

/-- The lowercase hex alphabet of Go's `encoding/hex` (its `hextable`
string). -/
def hexDigits : List Char := "0123456789abcdef".data

/-- Lowercase hex encoding of a byte string, high nibble first
(Go `hex.EncodeToString`). -/
def hexEncode (bs : List Nat) : List Char :=
  (bs.map (fun b => [hexDigits.getD (b / 16 % 16) '0', hexDigits.getD (b % 16) '0'])).flatten

end Crypto

namespace Webhook

/-- Verifies Sentry webhook signatures over a shared secret
(`SignatureVerifier` of the webhook package; the secret is `[]byte`). -/
structure SignatureVerifier where
  secret : List Nat

/-- The expected signature string: lowercase hex of the HMAC-SHA256 of the
body under the verifier's secret. -/
def expectedSignature (secret body : List Nat) : String :=
  String.mk (Crypto.hexEncode (Crypto.hmacSha256 secret body))

/-- `SignatureVerifier.Verify`: an empty signature is rejected outright;
otherwise the supplied signature is compared byte-for-byte (`hmac.Equal`,
which for UTF-8 strings is string equality) with the hex-encoded expected
HMAC. -/
def SignatureVerifier.Verify (v : SignatureVerifier) (signature : String)
    (body : List Nat) : Bool :=
  if signature = "" then false
  else signature == expectedSignature v.secret body

/-- What the signature middleware does with a request: respond itself with
an HTTP status (the downstream handler is never invoked), or forward the
re-buffered body to the downstream handler. -/
inductive MiddlewareResult where
  | response (status : Nat) (message : String)
  | forwarded (body : List Nat)
deriving DecidableEq

/-- `SignatureVerifier.Middleware`: the `Sentry-Hook-Signature` header value
(`""` when the header is missing), then the body read (`none` models an
`io.ReadAll` failure), then signature verification; only on success is the
downstream handler invoked, on the buffered body. -/
def SignatureVerifier.Middleware (v : SignatureVerifier) (signature : String)
    (bodyRead : Option (List Nat)) : MiddlewareResult :=
  if signature = "" then .response 401 "missing signature"
  else
    match bodyRead with
    | none => .response 400 "failed to read body"
    | some body =>
      if v.Verify signature body then .forwarded body
      else .response 401 "invalid signature"

/-- A dynamically-typed JSON value, the model of Go's `interface{}` as
produced by `encoding/json` (numbers restricted to the integers that the
payloads carry; Go narrows `float64` line/column numbers with `int(·)`,
which on integral values is the identity). An object is its key/value
list; Go map indexing is lookup of the first matching key. -/
inductive JSON where
  | null
  | bool (b : Bool)
  | num (n : Int)
  | str (s : String)
  | arr (elems : List JSON)
  | obj (fields : List (String × JSON))

/-- Go type assertion `.(map[string]interface{})`. -/
def JSON.asObj : JSON → Option (List (String × JSON))
  | .obj fields => some fields
  | _ => none

/-- Go type assertion `.([]interface{})`. -/
def JSON.asArr : JSON → Option (List JSON)
  | .arr elems => some elems
  | _ => none

/-- Go type assertion `.(string)`. -/
def JSON.asStr : JSON → Option String
  | .str s => some s
  | _ => none

/-- Go type assertion `.(bool)`. -/
def JSON.asBool : JSON → Option Bool
  | .bool b => some b
  | _ => none

/-- Go type assertion `.(float64)` (integral JSON numbers). -/
def JSON.asNum : JSON → Option Int
  | .num n => some n
  | _ => none

/-- Association lookup: Go map indexing on a decoded JSON object followed
by a type assertion (a missing key yields `nil`, failing the assertion). -/
def jlookup (fields : List (String × JSON)) (key : String) : Option JSON :=
  match fields with
  | [] => none
  | (k, v) :: rest => if k = key then some v else jlookup rest key

/-- `Project` of the Sentry payload. -/
structure Project where
  id : String := ""
  name : String := ""
  slug : String := ""
  platform : String := ""

/-- `Metadata` of a Sentry issue. -/
structure Metadata where
  type : String := ""
  value : String := ""
  filename : String := ""
  function : String := ""

/-- `Issue` of the Sentry payload (`time.Time` fields modelled as opaque
`Nat` timestamps; they are never inspected). -/
structure Issue where
  id : String := ""
  shortID : String := ""
  title : String := ""
  culprit : String := ""
  permalink : String := ""
  logger : String := ""
  level : String := ""
  status : String := ""
  platform : String := ""
  project : Project := {}
  metadata : Metadata := {}
  firstSeen : Nat := 0
  lastSeen : Nat := 0
  count : String := ""
  userCount : Int := 0

/-- `Entry` of a Sentry event: a type tag and a loosely-typed data value. -/
structure Entry where
  type : String := ""
  data : JSON := .null

/-- `SDK` info of a Sentry event. -/
structure SDK where
  name : String := ""
  version : String := ""

/-- A Sentry tag. -/
structure Tag where
  key : String := ""
  value : String := ""

/-- User info of a Sentry event. -/
structure User where
  id : String := ""
  email : String := ""
  username : String := ""
  ipAddress : String := ""

/-- Runtime contexts of a Sentry event (loosely-typed maps). -/
structure Contexts where
  browser : List (String × JSON) := []
  os : List (String × JSON) := []
  runtime : List (String × JSON) := []
  device : List (String × JSON) := []

/-- `Event` of the Sentry payload. -/
structure Event where
  eventID : String := ""
  context : JSON := .null
  contexts : Contexts := {}
  dateCreated : Nat := 0
  entries : List Entry := []
  message : String := ""
  platform : String := ""
  sdk : SDK := {}
  tags : List Tag := []
  title : String := ""
  type : String := ""
  user : Option User := none

/-- Who triggered the action. -/
structure Actor where
  type : String := ""
  id : String := ""
  name : String := ""

/-- `WebhookData`: the optional issue and event of the envelope. -/
structure WebhookData where
  issue : Option Issue := none
  event : Option Event := none

/-- The incoming Sentry webhook envelope. -/
structure SentryWebhook where
  action : String := ""
  data : WebhookData := {}
  actor : Actor := {}

/-- The typed `Frame` record (zero values match Go's zero-valued struct). -/
structure Frame where
  filename : String := ""
  absPath : String := ""
  module : String := ""
  package : String := ""
  platform : String := ""
  function : String := ""
  inApp : Bool := false
  lineNo : Int := 0
  colNo : Int := 0
  context : List (List JSON) := []
  vars : List (String × JSON) := []
  preContext : List String := []
  postContext : List String := []

/-- The canonical error record extracted for the agent. -/
structure ParsedError where
  issueID : String := ""
  projectSlug : String := ""
  title : String := ""
  errorType : String := ""
  errorMessage : String := ""
  level : String := ""
  platform : String := ""
  culprit : String := ""
  frames : List Frame := []
  permalink : String := ""

/-- `getBool`: a map entry read as a bool, `false` when absent or not a
bool. -/
def getBool (m : List (String × JSON)) (key : String) : Bool :=
  match (jlookup m key).bind JSON.asBool with
  | some v => v
  | none => false

/-- One frame built from a loosely-typed frame object: each optional field
is set only when present with the right type, and stays at its zero value
otherwise (the conditional assignments of `ParseWebhook`'s inner loop). -/
def frameOfObj (fm : List (String × JSON)) : Frame :=
  { inApp := getBool fm "inApp"
    filename := ((jlookup fm "filename").bind JSON.asStr).getD ""
    absPath := ((jlookup fm "absPath").bind JSON.asStr).getD ""
    function := ((jlookup fm "function").bind JSON.asStr).getD ""
    lineNo := ((jlookup fm "lineNo").bind JSON.asNum).getD 0
    colNo := ((jlookup fm "colNo").bind JSON.asNum).getD 0
    module := ((jlookup fm "module").bind JSON.asStr).getD "" }

/-- The innermost loop of `ParseWebhook`: append one parsed frame per
object element of a `frames` array onto the accumulated frame list. -/
def appendFrames (acc : List Frame) (frames : List JSON) : List Frame :=
  frames.foldl
    (fun acc3 f =>
      match f.asObj with
      | some fm => acc3 ++ [frameOfObj fm]
      | none => acc3)
    acc

/-- The `values` loop of `ParseWebhook`: drill `value → stacktrace →
frames` through type assertions, skipping any level that fails one. -/
def appendValueFrames (acc : List Frame) (values : List JSON) : List Frame :=
  values.foldl
    (fun acc2 v =>
      match v.asObj with
      | some val =>
        match (jlookup val "stacktrace").bind JSON.asObj with
        | some st =>
          match (jlookup st "frames").bind JSON.asArr with
          | some frames => appendFrames acc2 frames
          | none => acc2
        | none => acc2
      | none => acc2)
    acc

/-- The body of the entries loop of `ParseWebhook`: only entries whose
type is `"exception"` contribute, through `data → values`. -/
def stepEntry (acc : List Frame) (entry : Entry) : List Frame :=
  if entry.type = "exception" then
    match entry.data.asObj with
    | some data =>
      match (jlookup data "values").bind JSON.asArr with
      | some values => appendValueFrames acc values
      | none => acc
    | none => acc
  else acc

/-- The entries loop of `ParseWebhook`. -/
def extractFrames (ev : Event) : List Frame :=
  ev.entries.foldl stepEntry []

/-- `ParseWebhook`: no issue, no record; otherwise scalar fields copy from
the issue and frames are extracted from the event (empty without one). -/
def ParseWebhook (wh : SentryWebhook) : Option ParsedError :=
  match wh.data.issue with
  | none => none
  | some issue =>
    some
      { issueID := issue.id
        projectSlug := issue.project.slug
        title := issue.title
        errorType := issue.metadata.type
        errorMessage := issue.metadata.value
        level := issue.level
        platform := issue.platform
        culprit := issue.culprit
        permalink := issue.permalink
        frames :=
          match wh.data.event with
          | none => []
          | some ev => extractFrames ev }

/-- The frame objects one element of a `values` array carries: its
`stacktrace.frames` object elements, in order. -/
def valueFrameObjs (v : JSON) : List (List (String × JSON)) :=
  match v.asObj with
  | some val =>
    match (jlookup val "stacktrace").bind JSON.asObj with
    | some st => (((jlookup st "frames").bind JSON.asArr).getD []).filterMap JSON.asObj
    | none => []
  | none => []

/-- The frame objects one entry carries: none unless it is an exception
entry with an object `data` holding a `values` array. -/
def entryFrameObjs (entry : Entry) : List (List (String × JSON)) :=
  if entry.type = "exception" then
    ((((entry.data.asObj.bind (jlookup · "values")).bind JSON.asArr).getD []).map
      valueFrameObjs).flatten
  else []

/-- The loosely-typed frame objects an event carries under its exception
entries, in source order: exception entries in order, their `values` in
order, each value's `stacktrace.frames` object elements in order. This is
the reference traversal the extraction loop is compared against. -/
def eventFrameObjs (ev : Event) : List (List (String × JSON)) :=
  (ev.entries.map entryFrameObjs).flatten

/-- The frame objects of the whole envelope (none without an event). -/
def webhookFrameObjs (wh : SentryWebhook) : List (List (String × JSON)) :=
  match wh.data.event with
  | none => []
  | some ev => eventFrameObjs ev

/-- A queued unit of work: the raw envelope plus its derived record. -/
structure Job where
  webhook : SentryWebhook
  parsedError : ParsedError

/-- An HTTP response as the handler writes it: the status code and the
bytes written to the response body (`""` when only the header is set). -/
structure HTTPResponse where
  status : Nat
  body : String
deriving DecidableEq

/-- The response body of the queued path. -/
def queuedBody : String := "\x7b\"status\":\"queued\"\x7d"

/-- The outcome of reading and decoding the request body: `readError`
models an `io.ReadAll` failure, `invalidJSON` a `json.Unmarshal` failure,
and `payload` a decoded envelope. -/
inductive BodyOutcome where
  | readError
  | invalidJSON
  | payload (wh : SentryWebhook)

/-- The bounded job queue, modelled as the list of queued jobs plus its
capacity; `select`/`default` enqueue appends only when a slot is free. -/
def enqueueNonBlocking (cap : Nat) (queue : List Job) (job : Job) : List Job :=
  if queue.length < cap then queue ++ [job] else queue

/-- What one call of the handler does: write a response (leaving the queue
as given), or abort with a run-time panic, in which case no response is
written at all (`net/http` recovers a handler panic but only closes the
connection). -/
inductive HandlerResult where
  | response (resp : HTTPResponse) (queue : List Job)
  | panic (msg : String)

/-- Go's message for dereferencing a nil pointer. -/
def nilDerefMsg : String :=
  "runtime error: invalid memory address or nil pointer dereference"

/-- `Handler.ServeHTTP`: method gate, body read, JSON decode, then the
received-webhook log line — which reads `webhook.Data.Issue.ID`
unconditionally, so a decoded envelope without an issue object
dereferences a nil pointer and panics before anything is written — then
the action gate, `ParseWebhook`, a non-blocking enqueue and an immediate
202 response. (The `ParseWebhook = none` branch below mirrors the source's
no-issue-data check, which the log line's panic makes unreachable.) -/
def serveHTTP (cap : Nat) (queue : List Job) (method : String)
    (body : BodyOutcome) : HandlerResult :=
  if method ≠ "POST" then .response ⟨405, "method not allowed"⟩ queue
  else
    match body with
    | .readError => .response ⟨400, "failed to read body"⟩ queue
    | .invalidJSON => .response ⟨400, "invalid payload"⟩ queue
    | .payload wh =>
      match wh.data.issue with
      | none => .panic nilDerefMsg
      | some _ =>
        if wh.action ≠ "created" ∧ wh.action ≠ "triggered" then
          .response ⟨202, ""⟩ queue
        else
          match ParseWebhook wh with
          | none => .response ⟨202, ""⟩ queue
          | some parsed =>
            .response ⟨202, queuedBody⟩ (enqueueNonBlocking cap queue ⟨wh, parsed⟩)

end Webhook

namespace GitProvider

/-- A tree entry: file mode and full blob content at a path. -/
structure TreeEntry where
  mode : String
  content : String
deriving DecidableEq

/-- A commit object: message, the tree it points to, its parents. -/
structure CommitObj where
  message : String
  treeSha : String
  parents : List String
deriving DecidableEq

/-- Modelled from the spec: the externally shared remote repository state
behind the GitHub REST API ("standard remote-hosting REST operations for
contents, refs, trees, commits"; "a tree maps paths to content blobs, a
commit points to one tree and its parent commit(s), a branch reference
points to the current tip commit"). Association lists keyed by ref name,
commit SHA and tree SHA; `fresh` mints identifiers for created objects. -/
structure GitState where
  refs : List (String × String)
  commits : List (String × CommitObj)
  trees : List (String × List (String × TreeEntry))
  fresh : Nat

/-- First-match association lookup. -/
def alookup {α : Type} (l : List (String × α)) (key : String) : Option α :=
  match l with
  | [] => none
  | (k, v) :: rest => if k = key then some v else alookup rest key

/-- Replace the value at a key, or append the pair when the key is new. -/
def aupsert {α : Type} (l : List (String × α)) (key : String) (v : α) :
    List (String × α) :=
  match l with
  | [] => [(key, v)]
  | (k, w) :: rest =>
    if k = key then (k, v) :: rest else (k, w) :: aupsert rest key v

/-- A fresh object identifier. -/
def mintSha (n : Nat) : String := "sha-" ++ toString n

/-- Modelled from the spec: `GetRef` — read the commit a reference points
at; fails on a network fault or an unknown reference ("any read/write step
against the remote API may fail due to network or authorization error"). -/
def apiGetRef (fault : Bool) (st : GitState) (ref : String) :
    Except String String :=
  if fault then .error "network error"
  else
    match alookup st.refs ref with
    | some sha => .ok sha
    | none => .error "Not Found"

/-- Modelled from the spec: `GetCommit` — read a commit object. -/
def apiGetCommit (fault : Bool) (st : GitState) (sha : String) :
    Except String CommitObj :=
  if fault then .error "network error"
  else
    match alookup st.commits sha with
    | some c => .ok c
    | none => .error "Not Found"

/-- Modelled from the spec: `CreateTree` with a base tree — "build a new
tree that overlays the changed files onto the base tree"; entries replace
blobs at their paths, every other path is inherited from the base. -/
def apiCreateTree (fault : Bool) (st : GitState) (baseSha : String)
    (entries : List (String × TreeEntry)) :
    Except String (String × GitState) :=
  if fault then .error "network error"
  else
    match alookup st.trees baseSha with
    | none => .error "Not Found"
    | some base =>
      let newTree := entries.foldl (fun t pe => aupsert t pe.1 pe.2) base
      let sha := mintSha st.fresh
      .ok (sha, { st with trees := aupsert st.trees sha newTree,
                          fresh := st.fresh + 1 })

/-- Modelled from the spec: `CreateCommit` — record a new commit object
(unreferenced until a ref points at it). -/
def apiCreateCommit (fault : Bool) (st : GitState) (c : CommitObj) :
    Except String (String × GitState) :=
  if fault then .error "network error"
  else
    let sha := mintSha st.fresh
    .ok (sha, { st with commits := aupsert st.commits sha c,
                        fresh := st.fresh + 1 })

/-- Modelled from the spec: `UpdateRef` — move an existing reference to a
commit (`force = false` permits only the fast-forward updates performed
here, where the new commit's parent is the ref's current target). -/
def apiUpdateRef (fault : Bool) (st : GitState) (ref sha : String)
    (force : Bool) : Except String GitState :=
  if fault then .error "network error"
  else
    match alookup st.refs ref with
    | some _ => .ok { st with refs := aupsert st.refs ref sha }
    | none => .error "Not Found"

/-- Modelled from the spec: `CreateRef` — create a new reference; the
remote reports the reference-already-exists condition when the name is
taken ("If the reference already exists ... a prior partial run may have
already created it"). -/
def apiCreateRef (fault : Bool) (st : GitState) (ref sha : String) :
    Except String GitState :=
  if fault then .error "network error"
  else
    match alookup st.refs ref with
    | some _ => .error "Reference already exists"
    | none => .ok { st with refs := st.refs ++ [(ref, sha)] }

/-- `strings.Contains`. -/
def containsSubstr (s sub : String) : Bool :=
  (List.range (s.length + 1)).any fun i => sub.data.isPrefixOf (s.data.drop i)

/-- One file modification of a commit: path, new full content, file mode
(empty means the default regular file). -/
structure FileChange where
  path : String
  content : String
  mode : String
deriving DecidableEq

/-- The tree entry `CommitFiles` builds for one file change: mode defaulted
to `100644`, type `blob`, full content. -/
def entryOfFileChange (f : FileChange) : TreeEntry :=
  ⟨if f.mode = "" then "100644" else f.mode, f.content⟩

/-- Network-fault injection for the five remote calls of `CommitFiles`. -/
structure CommitFaults where
  getRef : Bool := false
  getCommit : Bool := false
  createTree : Bool := false
  createCommit : Bool := false
  updateRef : Bool := false

/-- `GitHubProvider.CommitFiles`: resolve the branch ref, resolve the
parent commit and its tree, create the overlay tree, create a commit whose
sole parent is the branch head, then advance the ref. Any failing step
returns a wrapped error at once; the returned state is the remote state
after whatever calls completed. -/
def CommitFiles (fs : CommitFaults) (st : GitState) (branch : String)
    (files : List FileChange) (message : String) :
    Except String String × GitState :=
  match apiGetRef fs.getRef st ("refs/heads/" ++ branch) with
  | .error e => (.error ("failed to get branch ref: " ++ e), st)
  | .ok parentSHA =>
    match apiGetCommit fs.getCommit st parentSHA with
    | .error e => (.error ("failed to get parent commit: " ++ e), st)
    | .ok parentCommit =>
      let baseTreeSHA := parentCommit.treeSha
      let treeEntries := files.map fun f => (f.path, entryOfFileChange f)
      match apiCreateTree fs.createTree st baseTreeSHA treeEntries with
      | .error e => (.error ("failed to create tree: " ++ e), st)
      | .ok (newTreeSha, st1) =>
        match apiCreateCommit fs.createCommit st1 ⟨message, newTreeSha, [parentSHA]⟩ with
        | .error e => (.error ("failed to create commit: " ++ e), st1)
        | .ok (newCommitSha, st2) =>
          match apiUpdateRef fs.updateRef st2 ("refs/heads/" ++ branch) newCommitSha false with
          | .error e => (.error ("failed to update branch ref: " ++ e), st2)
          | .ok st3 => (.ok newCommitSha, st3)

/-- `GitHubProvider.CreateBranch`: create the ref; an error whose message
contains "Reference already exists" is treated as success. -/
def CreateBranch (fault : Bool) (st : GitState) (name baseSHA : String) :
    Except String Unit × GitState :=
  match apiCreateRef fault st ("refs/heads/" ++ name) baseSHA with
  | .ok st' => (.ok (), st')
  | .error e =>
    if containsSubstr e "Reference already exists" then (.ok (), st)
    else (.error ("failed to create branch " ++ name ++ ": " ++ e), st)

/-- The outbound pull-request intent. -/
structure PRRequest where
  title : String := ""
  body : String := ""
  head : String := ""
  base : String := ""
  draft : Bool := false
  labels : List String := []
  assignees : List String := []

/-- The provider's created-PR result. -/
structure PRResponse where
  number : Nat
  url : String
  htmlURL : String
deriving DecidableEq

/-- A pull request as the remote records it. -/
structure PRRecord where
  number : Nat
  url : String
  htmlURL : String
  title : String
  body : String
  head : String
  base : String
  draft : Bool
  labels : List String
  assignees : List String

/-- Modelled from the spec: the remote's pull-request store. -/
structure PRState where
  prs : List PRRecord
  nextNumber : Nat

/-- Modelled from the spec: the PR-creation REST call — mints the next PR
number and its URLs. -/
def apiCreatePR (fault : Bool) (st : PRState) (req : PRRequest) :
    Except String (PRRecord × PRState) :=
  if fault then .error "network error"
  else
    let pr : PRRecord :=
      { number := st.nextNumber
        url := "https://api.github.com/pulls/" ++ toString st.nextNumber
        htmlURL := "https://github.com/pull/" ++ toString st.nextNumber
        title := req.title, body := req.body, head := req.head
        base := req.base, draft := req.draft, labels := [], assignees := [] }
    .ok (pr, { prs := st.prs ++ [pr], nextNumber := st.nextNumber + 1 })

/-- Modelled from the spec: `AddLabelsToIssue` on a PR number. -/
def apiAddLabels (fault : Bool) (st : PRState) (number : Nat)
    (labels : List String) : Except String PRState :=
  if fault then .error "network error"
  else
    .ok { st with prs := st.prs.map fun pr =>
            if pr.number = number then { pr with labels := pr.labels ++ labels }
            else pr }

/-- Modelled from the spec: `AddAssignees` on a PR number. -/
def apiAddAssignees (fault : Bool) (st : PRState) (number : Nat)
    (assignees : List String) : Except String PRState :=
  if fault then .error "network error"
  else
    .ok { st with prs := st.prs.map fun pr =>
            if pr.number = number then { pr with assignees := pr.assignees ++ assignees }
            else pr }

/-- Network-fault injection for the three remote calls of
`CreatePullRequest`. -/
structure PRFaults where
  create : Bool := false
  addLabels : Bool := false
  addAssignees : Bool := false

/-- `GitHubProvider.CreatePullRequest`: create the PR; on success, apply
labels and assignees as two independent non-fatal side effects (a failure
of either is only logged) and return the created PR's number and URLs. -/
def CreatePullRequest (fs : PRFaults) (st : PRState) (req : PRRequest) :
    Except String PRResponse × PRState :=
  match apiCreatePR fs.create st req with
  | .error e => (.error ("failed to create pull request: " ++ e), st)
  | .ok (created, st1) =>
    let st2 :=
      if req.labels.length > 0 then
        match apiAddLabels fs.addLabels st1 created.number req.labels with
        | .ok s => s
        | .error _ => st1
      else st1
    let st3 :=
      if req.assignees.length > 0 then
        match apiAddAssignees fs.addAssignees st2 created.number req.assignees with
        | .ok s => s
        | .error _ => st2
      else st2
    (.ok ⟨created.number, created.url, created.htmlURL⟩, st3)

/-- The last file change targeting a path (later changes to the same path
override earlier ones in the created tree). -/
def lastChangeAt (files : List FileChange) (p : String) : Option FileChange :=
  (files.filter (fun f => f.path = p)).getLast?

end GitProvider

/-! Concrete fixtures used by the witness theorems. -/

/-- A valid "created" envelope (the shape of the handler tests'
`validWebhookPayload`). -/
def Webhook.sampleWebhook : Webhook.SentryWebhook :=
  { action := "created"
    data := { issue := some { id := "12345", shortID := "PROJ-1",
                              title := "Test Error", level := "error",
                              project := { slug := "test-project" } } } }

/-- The record `ParseWebhook` derives from `sampleWebhook`. -/
def Webhook.sampleParsed : Webhook.ParsedError :=
  { issueID := "12345", projectSlug := "test-project", title := "Test Error",
    level := "error" }

/-- The job queued for `sampleWebhook`. -/
def Webhook.sampleJob : Webhook.Job :=
  ⟨Webhook.sampleWebhook, Webhook.sampleParsed⟩

/-- An envelope with a lifecycle action outside created/triggered. -/
def Webhook.resolvedWebhook : Webhook.SentryWebhook :=
  { Webhook.sampleWebhook with action := "resolved" }

/-- A decoded envelope with action "resolved" and no issue object (the
body `\x7b"action":"resolved"\x7d`). -/
def Webhook.noIssueResolvedWebhook : Webhook.SentryWebhook :=
  { action := "resolved" }

/-- An envelope whose issue object carries an empty `id` and project slug. -/
def Webhook.emptyIDWebhook : Webhook.SentryWebhook :=
  { action := "created", data := { issue := some {} } }

/-- An envelope with an event: one non-exception entry, and one exception
entry with two values; the first value's stacktrace holds a fully-populated
frame object, a non-object element, and a frame object missing every
optional field; the second value is a non-object element. -/
def Webhook.framesWebhook : Webhook.SentryWebhook :=
  { action := "triggered"
    data :=
      { issue := some { id := "99", project := { slug := "p" } }
        event := some
          { entries :=
              [ { type := "breadcrumbs", data := .obj [("values", .arr [.obj [("inApp", .bool true)]])] },
                { type := "exception"
                  data := .obj
                    [("values", .arr
                      [ .obj [("stacktrace", .obj
                          [("frames", .arr
                            [ .obj [("filename", .str "a.go"), ("absPath", .str "/src/a.go"),
                                    ("module", .str "m"), ("function", .str "F"),
                                    ("inApp", .bool true), ("lineNo", .num 42), ("colNo", .num 7)],
                              .str "not-a-frame",
                              .obj [] ])]
                        )]
                      , .num 3 ])] } ] } } }

/-- The two frames `ParseWebhook` extracts from `framesWebhook`. -/
def Webhook.framesParsed : Webhook.ParsedError :=
  { issueID := "99", projectSlug := "p"
    frames :=
      [ { filename := "a.go", absPath := "/src/a.go", module := "m",
          function := "F", inApp := true, lineNo := 42, colNo := 7 },
        {} ] }

/-- A one-branch, one-commit, one-tree remote state. -/
def GitProvider.st0 : GitProvider.GitState :=
  { refs := [("refs/heads/main", "c0")]
    commits := [("c0", ⟨"init", "t0", []⟩)]
    trees := [("t0", [("a.txt", ⟨"100644", "old"⟩), ("b.txt", ⟨"100644", "keep"⟩)])]
    fresh := 0 }

/-- The head commit of `st0`. -/
def GitProvider.head0 : GitProvider.CommitObj := ⟨"init", "t0", []⟩

/-- The base tree of `st0`. -/
def GitProvider.tree0 : List (String × GitProvider.TreeEntry) :=
  [("a.txt", ⟨"100644", "old"⟩), ("b.txt", ⟨"100644", "keep"⟩)]

/-- One file change replacing `a.txt`, with the default mode. -/
def GitProvider.files0 : List GitProvider.FileChange :=
  [⟨"a.txt", "new content", ""⟩]

/-! ## Helper lemmas -/

namespace Crypto

/-- A SHA-256 digest is never empty (it always has 32 bytes). -/
theorem sha256_ne_nil (msg : List Nat) : sha256 msg ≠ [] := by
  simp [sha256, wordBytes]

/-- Hex encoding of a non-empty byte string is non-empty. -/
theorem hexEncode_ne_nil {bs : List Nat} (h : bs ≠ []) : hexEncode bs ≠ [] := by
  cases bs with
  | nil => exact absurd rfl h
  | cons b rest => simp [hexEncode]

/-- Any element `getD` reads off the hex alphabet is in the hex alphabet
(so is its default `'0'`). -/
theorem hexDigits_getD_mem (n : Nat) : hexDigits.getD n '0' ∈ hexDigits := by
  by_cases h : n < hexDigits.length
  · rw [List.getD_eq_getElem _ _ h]
    exact List.getElem_mem h
  · rw [List.getD_eq_default _ _ (Nat.le_of_not_lt h)]
    decide

/-- Every character of a hex encoding is a lowercase hex digit. -/
theorem mem_hexEncode {c : Char} {bs : List Nat} (h : c ∈ hexEncode bs) :
    c ∈ hexDigits := by
  simp only [hexEncode, List.mem_flatten, List.mem_map] at h
  obtain ⟨l, ⟨b, _, rfl⟩, hc⟩ := h
  simp only [List.mem_cons, List.mem_singleton] at hc
  rcases hc with rfl | rfl | hc
  · exact hexDigits_getD_mem _
  · exact hexDigits_getD_mem _
  · exact absurd hc (List.not_mem_nil c)

/-- No lowercase hex digit is an uppercase letter. -/
theorem hexDigits_not_upper : ∀ c ∈ hexDigits, ¬('A' ≤ c ∧ c ≤ 'Z') := by
  decide

end Crypto

namespace Webhook

/-- The expected signature is never the empty string. -/
theorem expectedSignature_ne_empty (secret body : List Nat) :
    expectedSignature secret body ≠ "" := by
  intro h
  have hd : Crypto.hexEncode (Crypto.hmacSha256 secret body) = [] := by
    have := congrArg String.data h
    simpa [expectedSignature] using this
  exact Crypto.hexEncode_ne_nil (Crypto.sha256_ne_nil _) hd

/-- Unrolling the inner frames loop: it appends one parsed frame per
object element, in order. -/
theorem appendFrames_eq (frames : List JSON) (acc : List Frame) :
    appendFrames acc frames = acc ++ (frames.filterMap JSON.asObj).map frameOfObj := by
  induction frames generalizing acc with
  | nil => simp [appendFrames]
  | cons f fs ih =>
    rw [show appendFrames acc (f :: fs) =
          appendFrames (match f.asObj with
            | some fm => acc ++ [frameOfObj fm]
            | none => acc) fs from rfl]
    cases hf : f.asObj with
    | some fm => simp [ih, List.filterMap_cons, hf]
    | none => simp [ih, List.filterMap_cons, hf]

/-- Unrolling the values loop: it appends the frames of each value's
stacktrace, in order. -/
theorem appendValueFrames_eq (values : List JSON) (acc : List Frame) :
    appendValueFrames acc values =
      acc ++ ((values.map valueFrameObjs).flatten).map frameOfObj := by
  induction values generalizing acc with
  | nil => simp [appendValueFrames]
  | cons v vs ih =>
    rw [show appendValueFrames acc (v :: vs) =
          appendValueFrames
            (match v.asObj with
              | some val =>
                match (jlookup val "stacktrace").bind JSON.asObj with
                | some st =>
                  match (jlookup st "frames").bind JSON.asArr with
                  | some frames => appendFrames acc frames
                  | none => acc
                | none => acc
              | none => acc) vs from rfl]
    cases hv : v.asObj with
    | none => simp [ih, valueFrameObjs, hv]
    | some val =>
      cases hst : (jlookup val "stacktrace").bind JSON.asObj with
      | none => simp [ih, valueFrameObjs, hv, hst]
      | some st =>
        cases hfr : (jlookup st "frames").bind JSON.asArr with
        | none => simp [ih, valueFrameObjs, hv, hst, hfr]
        | some frames =>
          simp [ih, valueFrameObjs, hv, hst, hfr, appendFrames_eq]

/-- One entry contributes exactly its exception frame objects, parsed. -/
theorem stepEntry_eq (acc : List Frame) (entry : Entry) :
    stepEntry acc entry = acc ++ (entryFrameObjs entry).map frameOfObj := by
  unfold stepEntry entryFrameObjs
  by_cases he : entry.type = "exception"
  · cases hd : entry.data.asObj with
    | none => simp [he, hd]
    | some data =>
      cases hv : (jlookup data "values").bind JSON.asArr with
      | none => simp [he, hd, hv]
      | some values => simp [he, hd, hv, appendValueFrames_eq]
  · simp [he]

/-- Unrolling the entries loop. -/
theorem foldl_stepEntry (entries : List Entry) (acc : List Frame) :
    entries.foldl stepEntry acc =
      acc ++ ((entries.map entryFrameObjs).flatten).map frameOfObj := by
  induction entries generalizing acc with
  | nil => simp
  | cons entry rest ih =>
    rw [List.foldl_cons, stepEntry_eq, ih]
    simp

/-- The extraction loop yields exactly the parsed frame objects of the
event, in source order. -/
theorem extractFrames_eq (ev : Event) :
    extractFrames ev = (eventFrameObjs ev).map frameOfObj := by
  rw [extractFrames, foldl_stepEntry, eventFrameObjs]
  simp

end Webhook

namespace GitProvider

/-- Looking up the key just upserted finds the new value. -/
theorem alookup_aupsert_self {α : Type} (l : List (String × α)) (k : String) (v : α) :
    alookup (aupsert l k v) k = some v := by
  induction l with
  | nil => simp [aupsert, alookup]
  | cons hd rest ih =>
    obtain ⟨k', w⟩ := hd
    by_cases h : k' = k
    · simp [aupsert, alookup, h]
    · simp [aupsert, alookup, h, ih]

/-- Upserting one key leaves every other key's binding unchanged. -/
theorem alookup_aupsert_ne {α : Type} (l : List (String × α)) (k k' : String)
    (v : α) (h : k' ≠ k) :
    alookup (aupsert l k v) k' = alookup l k' := by
  induction l with
  | nil => simp [aupsert, alookup, Ne.symm h]
  | cons hd rest ih =>
    obtain ⟨k0, w⟩ := hd
    by_cases h0 : k0 = k
    · subst h0
      simp [aupsert, alookup, Ne.symm h]
    · simp only [aupsert, if_neg h0, alookup]
      by_cases h1 : k0 = k'
      · simp [h1]
      · simp [h1, ih]

/-- A binding appended for an absent key is found. -/
theorem alookup_append_single {α : Type} (l : List (String × α)) (k : String)
    (v : α) (h : alookup l k = none) :
    alookup (l ++ [(k, v)]) k = some v := by
  induction l with
  | nil => simp [alookup]
  | cons hd rest ih =>
    obtain ⟨k0, w⟩ := hd
    by_cases h0 : k0 = k
    · simp [alookup, h0] at h
    · simp only [alookup, if_neg h0] at h
      simpa [alookup, if_neg h0] using ih h

/-- Folding upserts over a base: a path's final binding comes from the last
entry targeting it, or from the base when no entry does. -/
theorem alookup_foldl_aupsert {α : Type} (entries : List (String × α))
    (base : List (String × α)) (p : String) :
    alookup (entries.foldl (fun t pe => aupsert t pe.1 pe.2) base) p =
      match (entries.filter (fun pe => pe.1 = p)).getLast? with
      | some pe => some pe.2
      | none => alookup base p := by
  induction entries generalizing base with
  | nil => simp
  | cons pe es ih =>
    rw [List.foldl_cons, ih]
    by_cases h : pe.1 = p
    · rw [List.filter_cons, if_pos (by simp [h])]
      cases hfl : es.filter (fun pe => decide (pe.1 = p)) with
      | nil => simp [h, alookup_aupsert_self]
      | cons q qs => rw [List.getLast?_cons_cons, List.getLast?_cons]
    · rw [List.filter_cons, if_neg (by simp [h]),
        alookup_aupsert_ne _ _ _ _ (Ne.symm h)]

/-- The created tree binds each changed path to its last requested content
and inherits every other path from the base tree. -/
theorem alookup_overlay (files : List FileChange)
    (baseTree : List (String × TreeEntry)) (p : String) :
    alookup ((files.map fun f => (f.path, entryOfFileChange f)).foldl
        (fun t pe => aupsert t pe.1 pe.2) baseTree) p =
      match lastChangeAt files p with
      | some fc => some (entryOfFileChange fc)
      | none => alookup baseTree p := by
  rw [alookup_foldl_aupsert, lastChangeAt, List.filter_map]
  simp only [Function.comp_def]
  rw [List.getLast?_map]
  cases hl : (files.filter fun f => decide (f.path = p)).getLast? <;> simp [hl]

end GitProvider

/-! ## The claims -/

namespace Webhook

/-- C1: for every secret and body, `Verify` accepts the hex-encoded
HMAC-SHA256 of the body under that secret; and it accepts a signature
string exactly when that string equals the expected value, so any
signature different from it — in particular any mutation of the signature
string, or a stale signature against a body whose expected HMAC encoding
differs — is rejected. -/
theorem verify_accepts_exactly_expected (secret body : List Nat) (s : String) :
    (SignatureVerifier.mk secret).Verify (expectedSignature secret body) body = true ∧
    ((SignatureVerifier.mk secret).Verify s body = true ↔
      s = expectedSignature secret body) := by
  constructor
  · simp [SignatureVerifier.Verify, expectedSignature_ne_empty]
  · unfold SignatureVerifier.Verify
    by_cases hs : s = ""
    · subst hs
      simp [Ne.symm (expectedSignature_ne_empty secret body)]
    · simp [hs]

/-- C10: `Verify` compares against the lowercase hex encoding by exact
equality, so a signature string containing an uppercase letter — an
uppercase or mixed-case hex rendering of the HMAC — is always rejected;
only the lowercase form can ever be accepted. -/
theorem verify_rejects_uppercase (secret body : List Nat) (s : String) (c : Char)
    (hc : c ∈ s.data) (hA : 'A' ≤ c) (hZ : c ≤ 'Z') :
    (SignatureVerifier.mk secret).Verify s body = false := by
  unfold SignatureVerifier.Verify
  by_cases hs : s = ""
  · simp [hs]
  · simp only [if_neg hs, beq_eq_false_iff_ne, ne_eq]
    intro heq
    subst heq
    exact Crypto.hexDigits_not_upper c (Crypto.mem_hexEncode hc) ⟨hA, hZ⟩

/-- Witness for C10 at a concrete uppercase signature. -/
theorem verify_rejects_uppercase_witness :
    (SignatureVerifier.mk []).Verify "AB" [] = false :=
  verify_rejects_uppercase [] [] "AB" 'A' (by decide) (by decide) (by decide)

/-- C7: the middleware answers a missing signature with the 401 status, an
unreadable body with the 400 status, and a signature failing verification
with the 401 status; the downstream handler runs only when verification
succeeds, so no failure case ever invokes it. -/
theorem middleware_failure_no_side_effects (v : SignatureVerifier) (sig : String)
    (bodyRead : Option (List Nat)) :
    (sig = "" → v.Middleware sig bodyRead = .response 401 "missing signature") ∧
    (sig ≠ "" → bodyRead = none →
      v.Middleware sig bodyRead = .response 400 "failed to read body") ∧
    (∀ b, sig ≠ "" → bodyRead = some b → v.Verify sig b = false →
      v.Middleware sig bodyRead = .response 401 "invalid signature") ∧
    (∀ b, v.Middleware sig bodyRead = .forwarded b →
      bodyRead = some b ∧ v.Verify sig b = true) := by
  unfold SignatureVerifier.Middleware
  by_cases hs : sig = ""
  · simp [hs]
  · refine ⟨fun h => absurd h hs, ?_, ?_, ?_⟩
    · rintro - rfl
      simp [if_neg hs]
    · rintro b - rfl hv
      simp [if_neg hs, hv]
    · intro b h
      rw [if_neg hs] at h
      cases bodyRead with
      | none => simp at h
      | some b' =>
        by_cases hv : v.Verify sig b' = true
        · simp only [if_pos hv, MiddlewareResult.forwarded.injEq] at h
          subst h
          exact ⟨rfl, hv⟩
        · simp [hv] at h

/-- C3 counterexample: an envelope whose issue object carries an empty
`id` and an empty project slug still yields a record, and that record's
`IssueID` and `ProjectSlug` are empty strings — the claimed non-emptiness
does not hold for every envelope. -/
theorem parse_record_with_empty_ids :
    (ParseWebhook emptyIDWebhook).map ParsedError.issueID = some "" ∧
    (ParseWebhook emptyIDWebhook).map ParsedError.projectSlug = some "" :=
  ⟨rfl, rfl⟩

/-- C3 (amended): whenever `ParseWebhook` returns a record, that record's
`IssueID` and `ProjectSlug` are copied verbatim from the envelope's issue
object — non-empty exactly when the payload's fields are — and when the
envelope carries no issue object, `ParseWebhook` returns no record at
all. -/
theorem parse_fields_copied (wh : SentryWebhook) :
    (ParseWebhook wh).map (fun p => (p.issueID, p.projectSlug)) =
      wh.data.issue.map (fun i => (i.id, i.project.slug)) := by
  cases h : wh.data.issue <;> simp [ParseWebhook, h]

/-- C5 (code bug): the claim fails at the failing input — a POST envelope
with action "resolved" carrying no issue object hits the handler's
unconditional issue-id log dereference and panics with a nil-pointer
run-time error, so no 202 (indeed no response at all) is written; the
handler's own no-issue-data 202 branch is unreachable behind that line.
When the envelope does carry an issue object, the claimed behaviour holds:
the "resolved" action is answered 202 with an empty body and the queue
untouched. -/
theorem ignored_action_panics_without_issue :
    serveHTTP 100 [] "POST" (.payload noIssueResolvedWebhook) =
      .panic nilDerefMsg ∧
    serveHTTP 100 [] "POST" (.payload resolvedWebhook) =
      .response ⟨202, ""⟩ [] :=
  ⟨rfl, rfl⟩

/-- C4: when the queue already holds its capacity (or more), handling one
more valid webhook still returns the 202 response with the same
queued-status body, and the queue is returned unchanged — the overflow job
is never placed in it, so the dispatcher can never receive it. -/
theorem enqueue_overflow_dropped (cap : Nat) (queue : List Job)
    (wh : SentryWebhook) (p : ParsedError)
    (hfull : cap ≤ queue.length)
    (hact : wh.action = "created" ∨ wh.action = "triggered")
    (hp : ParseWebhook wh = some p) :
    serveHTTP cap queue "POST" (.payload wh) = .response ⟨202, queuedBody⟩ queue := by
  have hgate : ¬(wh.action ≠ "created" ∧ wh.action ≠ "triggered") := by
    rcases hact with h | h <;> simp [h]
  cases hi : wh.data.issue with
  | none => simp [ParseWebhook, hi] at hp
  | some issue =>
    unfold serveHTTP enqueueNonBlocking
    simp [hi, hgate, hp, Nat.not_lt.mpr hfull]

/-- Witness for C4: a queue of one job at capacity one drops the overflow
job but answers as usual. -/
theorem enqueue_overflow_dropped_witness :
    serveHTTP 1 [sampleJob] "POST" (.payload sampleWebhook) =
      .response ⟨202, queuedBody⟩ [sampleJob] :=
  enqueue_overflow_dropped 1 [sampleJob] sampleWebhook sampleParsed
    (by decide) (Or.inl rfl) (by rfl)

/-- C6: whenever `ParseWebhook` yields a record, its frame list is exactly
the image of the envelope's exception frame objects under the per-frame
parser `frameOfObj` — the same count, the same source order, never
deduplicated or reordered, each frame's `InApp` flag read from the source
object (`false` when absent), and every missing optional field left at its
zero value by `frameOfObj` rather than failing the parse. -/
theorem parse_preserves_frames (wh : SentryWebhook) (p : ParsedError)
    (hp : ParseWebhook wh = some p) :
    p.frames = (webhookFrameObjs wh).map frameOfObj ∧
    p.frames.length = (webhookFrameObjs wh).length ∧
    p.frames.map Frame.inApp =
      (webhookFrameObjs wh).map (fun fm => getBool fm "inApp") := by
  cases hi : wh.data.issue with
  | none => simp [ParseWebhook, hi] at hp
  | some issue =>
    simp only [ParseWebhook, hi, Option.some.injEq] at hp
    have hframes : p.frames = (webhookFrameObjs wh).map frameOfObj := by
      subst hp
      cases he : wh.data.event with
      | none => simp [webhookFrameObjs, he]
      | some ev => simp [webhookFrameObjs, he, extractFrames_eq]
    refine ⟨hframes, ?_, ?_⟩
    · rw [hframes, List.length_map]
    · rw [hframes, List.map_map]
      rfl

/-- Witness for C6 on an envelope with a non-exception entry, two frame
objects (one missing every optional field), and non-object noise. -/
theorem parse_preserves_frames_witness :
    framesParsed.frames = (webhookFrameObjs framesWebhook).map frameOfObj ∧
    framesParsed.frames.length = (webhookFrameObjs framesWebhook).length ∧
    framesParsed.frames.map Frame.inApp =
      (webhookFrameObjs framesWebhook).map (fun fm => getBool fm "inApp") :=
  parse_preserves_frames framesWebhook framesParsed (by rfl)

end Webhook

namespace GitProvider

/-- C2: with the branch ref, head commit and base tree resolvable and no
network fault, `CommitFiles` succeeds and returns the new commit's
identifier: afterwards the branch ref points at a new commit whose sole
parent is the branch's previous head and whose tree overlays the changed
files onto the base tree (a changed path holds its last requested content,
every other path is inherited unchanged), and no other ref moves. When any
step fails, an error is returned and no ref has moved — in particular the
branch is not advanced (a fault at the first step leaves the remote state
entirely untouched). -/
theorem commitFiles_spec (st : GitState) (branch message : String)
    (files : List FileChange) (headSha : String) (head : CommitObj)
    (baseTree : List (String × TreeEntry))
    (href : alookup st.refs ("refs/heads/" ++ branch) = some headSha)
    (hcommit : alookup st.commits headSha = some head)
    (htree : alookup st.trees head.treeSha = some baseTree) :
    (∃ newSha st',
      CommitFiles {} st branch files message = (.ok newSha, st') ∧
      alookup st'.refs ("refs/heads/" ++ branch) = some newSha ∧
      (∀ r, r ≠ "refs/heads/" ++ branch → alookup st'.refs r = alookup st.refs r) ∧
      ∃ c, alookup st'.commits newSha = some c ∧
        c.parents = [headSha] ∧ c.message = message ∧
        ∃ t, alookup st'.trees c.treeSha = some t ∧
          ∀ p, alookup t p =
            match lastChangeAt files p with
            | some fc => some (entryOfFileChange fc)
            | none => alookup baseTree p) ∧
    (∀ fs e st', CommitFiles fs st branch files message = (.error e, st') →
      st'.refs = st.refs) ∧
    (∀ fs : CommitFaults, fs.getRef = true →
      CommitFiles fs st branch files message =
        (.error ("failed to get branch ref: " ++ "network error"), st)) := by
  refine ⟨?_, ?_, ?_⟩
  · refine ⟨mintSha (st.fresh + 1),
      { refs := aupsert st.refs ("refs/heads/" ++ branch) (mintSha (st.fresh + 1))
        commits := aupsert st.commits (mintSha (st.fresh + 1))
          ⟨message, mintSha st.fresh, [headSha]⟩
        trees := aupsert st.trees (mintSha st.fresh)
          ((files.map fun f => (f.path, entryOfFileChange f)).foldl
            (fun t pe => aupsert t pe.1 pe.2) baseTree)
        fresh := st.fresh + 1 + 1 },
      ?_, ?_, ?_, ?_⟩
    · simp [CommitFiles, apiGetRef, apiGetCommit, apiCreateTree, apiCreateCommit,
        apiUpdateRef, href, hcommit, htree]
    · exact alookup_aupsert_self _ _ _
    · intro r hr
      exact alookup_aupsert_ne _ _ _ _ hr
    · refine ⟨⟨message, mintSha st.fresh, [headSha]⟩, alookup_aupsert_self _ _ _,
        rfl, rfl, ?_⟩
      exact ⟨_, alookup_aupsert_self _ _ _, alookup_overlay files baseTree⟩
  · rintro ⟨f1, f2, f3, f4, f5⟩ e st' hcf
    cases f1 <;> cases f2 <;> cases f3 <;> cases f4 <;> cases f5 <;>
      simp [CommitFiles, apiGetRef, apiGetCommit, apiCreateTree, apiCreateCommit,
        apiUpdateRef, href, hcommit, htree] at hcf <;>
      (obtain ⟨-, h2⟩ := hcf; subst h2; rfl)
  · rintro ⟨f1, f2, f3, f4, f5⟩ hf
    simp only at hf
    subst hf
    simp [CommitFiles, apiGetRef]

/-- Witness for C2 on a one-branch remote with one file change. -/
theorem commitFiles_spec_witness :
    ∃ newSha st', CommitFiles {} st0 "main" files0 "fix" = (.ok newSha, st') ∧
      alookup st'.refs ("refs/heads/" ++ "main") = some newSha := by
  obtain ⟨⟨newSha, st', h1, h2, -⟩, -, -⟩ :=
    commitFiles_spec st0 "main" "fix" files0 "c0" head0 tree0 (by rfl) (by rfl) (by rfl)
  exact ⟨newSha, st', h1, h2⟩

/-- C8: when the reference for the branch already exists, the remote
reports the reference-already-exists condition and `CreateBranch` returns
success with the state unchanged; consequently a second `CreateBranch`
with the same name and base after a successful first call never errors. -/
theorem createBranch_idempotent (st : GitState) (name baseSHA : String) :
    (∀ sha, alookup st.refs ("refs/heads/" ++ name) = some sha →
      CreateBranch false st name baseSHA = (.ok (), st)) ∧
    (∀ st', CreateBranch false st name baseSHA = (.ok (), st') →
      CreateBranch false st' name baseSHA = (.ok (), st')) := by
  have hself : containsSubstr "Reference already exists" "Reference already exists" = true := by
    decide
  constructor
  · intro sha h
    simp [CreateBranch, apiCreateRef, h, hself]
  · intro st' h
    cases hl : alookup st.refs ("refs/heads/" ++ name) with
    | some sha =>
      have h1 : CreateBranch false st name baseSHA = (.ok (), st) := by
        simp [CreateBranch, apiCreateRef, hl, hself]
      rw [h1] at h
      simp only [Prod.mk.injEq, true_and] at h
      subst h
      simp [CreateBranch, apiCreateRef, hl, hself]
    | none =>
      have h1 : CreateBranch false st name baseSHA =
          (.ok (), { st with refs := st.refs ++ [("refs/heads/" ++ name, baseSHA)] }) := by
        simp [CreateBranch, apiCreateRef, hl]
      rw [h1] at h
      simp only [Prod.mk.injEq, true_and] at h
      subst h
      have h2 : alookup ({ st with
          refs := st.refs ++ [("refs/heads/" ++ name, baseSHA)] } : GitState).refs
          ("refs/heads/" ++ name) = some baseSHA :=
        alookup_append_single _ _ _ hl
      simp [CreateBranch, apiCreateRef, h2, hself]

/-- C9: once the PR-creation call itself succeeds, `CreatePullRequest`
returns a PR response carrying the created PR's number and URLs whatever
the outcome of the label and assignee calls — a label or assignee failure
never turns the result into an error. -/
theorem createPR_nonfatal (st : PRState) (req : PRRequest) (fLabels fAssignees : Bool) :
    ∃ st', CreatePullRequest ⟨false, fLabels, fAssignees⟩ st req =
      (.ok ⟨st.nextNumber,
        "https://api.github.com/pulls/" ++ toString st.nextNumber,
        "https://github.com/pull/" ++ toString st.nextNumber⟩, st') :=
  ⟨_, rfl⟩

end GitProvider
